import Mathlib

/-!
Verification of the indicator engine in `src/financialAPIdata.py`.

Each Python function is embedded shallowly: Python floats become `ℚ`
(exact arithmetic), parsed volumes become `ℤ`, Python exceptions
(`ZeroDivisionError` from `x / 0.0`, `IndexError` from an out-of-range
list subscript) become an `Except PyErr` result.  The design documents
also name two error kinds (`DegenerateRangeError`,
`InsufficientHistoryError`) that the script itself never defines; they
appear as extra constructors of `PyErr` so that statements about them
can be written down, but no embedded function ever produces them.
-/

/-- One normalized OHLCV entry, as consumed by the indicator functions
(the script reads the fields named Open, High, Low, Close, Volume of each
JSON record). -/
structure Day where
  Open : ℚ
  High : ℚ
  Low : ℚ
  Close : ℚ
  Volume : ℤ
  deriving DecidableEq, Repr

/-- Runtime errors.  `zeroDivisionError` and `indexError` model the Python
exceptions the script can actually raise; `degenerateRangeError` and
`insufficientHistoryError` are the error kinds named by the design
documents (never raised by the script — they exist only so claims about
them can be stated). -/
inductive PyErr where
  | zeroDivisionError
  | indexError
  | degenerateRangeError
  | insufficientHistoryError
  deriving DecidableEq, Repr

/-- Python division on floats: raises `ZeroDivisionError` on a zero
denominator, otherwise exact division. -/
def pyDiv (a b : ℚ) : Except PyErr ℚ :=
  if b = 0 then .error .zeroDivisionError else .ok (a / b)

/-- Python list subscript `l[i]`: `IndexError` when out of range. -/
def pyIndex (l : List Day) (i : Nat) : Except PyErr Day :=
  match l[i]? with
  | some d => .ok d
  | none => .error .indexError

/-- One iteration of the high/low scan shared by `psScore` and
`trainingDecision`: the running low is lowered to `day.Low` when it is
above it, the running high raised to `day.High` when it is below it. -/
def scanStep (hl : ℚ × ℚ) (day : Day) : ℚ × ℚ :=
  (if hl.1 < day.High then day.High else hl.1,
   if hl.2 > day.Low then day.Low else hl.2)

/-- The scan loop of `psScore`/`trainingDecision`, started from the
sentinels `historicHigh = 0.0`, `historicLow = 2000000.0` exactly as in
the source. -/
def scanHighLow (historicalJSONData : List Day) : ℚ × ℚ :=
  historicalJSONData.foldl scanStep (0, 2000000)

/-- `psScore` (lines 78-89): scans for the high/low of the window and
returns `(2*currentValue - historicHigh - historicLow) /
(historicHigh - historicLow)`. -/
def psScore (historicalJSONData : List Day) (currentValue : ℚ) : Except PyErr ℚ :=
  let historicHigh := (scanHighLow historicalJSONData).1
  let historicLow := (scanHighLow historicalJSONData).2
  pyDiv (2 * currentValue - historicHigh - historicLow) (historicHigh - historicLow)

/-- `trainingDecision` (lines 102-125): same high/low scan over the
forward window, then the long/short branch on
`futureGain >= futureLoss`, returning the signed return and the
Boolean recommendation. -/
def trainingDecision (historicalJSONData : List Day) (currentValue percentageGoal : ℚ) :
    Except PyErr (ℚ × Bool) :=
  let historicHigh := (scanHighLow historicalJSONData).1
  let historicLow := (scanHighLow historicalJSONData).2
  let futureGain := historicHigh - currentValue
  let futureLoss := currentValue - historicLow
  if futureGain ≥ futureLoss then
    (pyDiv futureGain currentValue).bind fun r =>
      .ok (r, decide (r > percentageGoal))
  else
    (pyDiv futureLoss currentValue).bind fun r =>
      .ok (-r, decide (r > percentageGoal))

/-- The seed loop of `relativeStrengthIndex` (lines 142-148): walks
indices `day, day+1, ...` for `remaining` steps, adding `-change` to the
loss accumulator when `change = Open - Close` is negative and `change`
to the gain accumulator otherwise. -/
def rsiSeedLoop (historicalJSONData : List Day) :
    Nat → Nat → ℚ → ℚ → Except PyErr (ℚ × ℚ)
  | _, 0, averageGain, averageLoss => .ok (averageGain, averageLoss)
  | day, remaining + 1, averageGain, averageLoss =>
    (pyIndex historicalJSONData day).bind fun d =>
      let change := d.Open - d.Close
      if change < 0 then
        rsiSeedLoop historicalJSONData (day + 1) remaining averageGain (averageLoss - change)
      else
        rsiSeedLoop historicalJSONData (day + 1) remaining (averageGain + change) averageLoss

/-- One iteration of the smoothing loop of `relativeStrengthIndex`
(lines 157-166).  `tp` is `timePeriodDivisible`, `tpl` is
`timePeriodLess`.  In the `change < 0` branch the source also appends
`averageGain/averageLoss` to a (discarded) list, so that division's
possible exception is kept. -/
def rsiSmoothStep (tp tpl : ℚ) (gl : ℚ × ℚ) (d : Day) : Except PyErr (ℚ × ℚ) :=
  let change := d.Open - d.Close
  if change < 0 then
    (pyDiv (gl.1 * tpl) tp).bind fun g =>
      (pyDiv (gl.2 * tpl - change) tp).bind fun l =>
        (pyDiv g l).bind fun _ => .ok (g, l)
  else
    (pyDiv (gl.2 * tpl) tp).bind fun l =>
      (pyDiv (gl.1 * tpl + change) tp).bind fun g =>
        .ok (g, l)

/-- `relativeStrengthIndex` (lines 135-169): seed phase over the first
`timePeriod` entries, averages divided by the period, Wilder smoothing
over the rest of the series, and finally
`100 - 100/(1 + averageGain/averageLoss)`. -/
def relativeStrengthIndex (historicalJSONData : List Day) (timePeriod : Nat) :
    Except PyErr ℚ :=
  let timePeriodDivisible : ℚ := timePeriod
  (rsiSeedLoop historicalJSONData 0 timePeriod 0 0).bind fun gl =>
    (pyDiv gl.1 timePeriodDivisible).bind fun averageGain =>
      (pyDiv gl.2 timePeriodDivisible).bind fun averageLoss =>
        let timePeriodLess := timePeriodDivisible - 1
        (List.foldlM (rsiSmoothStep timePeriodDivisible timePeriodLess)
            (averageGain, averageLoss) (historicalJSONData.drop timePeriod)).bind fun gl2 =>
          (pyDiv gl2.1 gl2.2).bind fun rs =>
            (pyDiv 100 (1 + rs)).bind fun q => .ok (100 - q)

/-- One iteration of the `onBalanceVolume` loop (lines 188-196): the
accumulator `OBV` is OVERWRITTEN with `-volume` / `+volume` on a down /
up day and kept unchanged on an equal close; the running state also
carries `lastClosing`. -/
def obvStep (st : ℤ × ℚ) (d : Day) : ℤ × ℚ :=
  (if d.Close < st.2 then -d.Volume
   else if d.Close > st.2 then d.Volume
   else st.1,
   d.Close)

/-- `onBalanceVolume` (lines 179-198): reads entry 0 for the initial
`lastClosing` (IndexError on an empty series), starts `OBV = 0`, and
runs `obvStep` over the remaining days. -/
def onBalanceVolume (historicalJSONData : List Day) : Except PyErr ℤ :=
  (pyIndex historicalJSONData 0).bind fun first =>
    .ok ((historicalJSONData.drop 1).foldl obvStep (0, first.Close)).1

/-- The SMA loop of `exponentialMovingAverage` (lines 217-219): sums the
closes at indices `day, day+1, ...` for `remaining` steps. -/
def emaSmaLoop (historicalJSONData : List Day) :
    Nat → Nat → ℚ → Except PyErr ℚ
  | _, 0, emaStart => .ok emaStart
  | day, remaining + 1, emaStart =>
    (pyIndex historicalJSONData day).bind fun d =>
      emaSmaLoop historicalJSONData (day + 1) remaining (emaStart + d.Close)

/-- The EMA-point loop of `exponentialMovingAverage` (lines 227-231):
each appended point is `(Close - prev) * multiplier + prev` where `prev`
is the previously appended point. -/
def emaBuild (multiplier prev : ℚ) : List Day → List ℚ
  | [] => []
  | d :: rest =>
    ((d.Close - prev) * multiplier + prev) ::
      emaBuild multiplier ((d.Close - prev) * multiplier + prev) rest

/-- `exponentialMovingAverage` (lines 208-233): multiplier
`2/(timePeriod+1)`, SMA of the first `timePeriod` closes as the seed,
then the EMA recurrence over the remaining entries; returns the whole
list of points. -/
def exponentialMovingAverage (historicalJSONData : List Day) (timePeriod : Nat) :
    Except PyErr (List ℚ) :=
  (pyDiv 2 ((timePeriod : ℚ) + 1)).bind fun multiplier =>
    (emaSmaLoop historicalJSONData 0 timePeriod 0).bind fun s =>
      (pyDiv s (timePeriod : ℚ)).bind fun emaStart =>
        .ok (emaStart :: emaBuild multiplier emaStart (historicalJSONData.drop timePeriod))

/-! Specification-side definitions, written from the spec's words and
named after the spec's component names, to be compared with the embedded
source functions. -/

/-- VolumeFlow per spec section 4.3: the signed volume of each
subsequent day (negative below the previous close, positive above, zero
on a tie) is ACCUMULATED into a running total seeded at 0, and the
final cumulative total is returned. -/
def volumeFlowSpec (days : List Day) : ℤ :=
  match days with
  | [] => 0
  | d0 :: rest =>
    (rest.foldl (fun (st : ℤ × ℚ) d =>
      (st.1 + (if d.Close < st.2 then -d.Volume
               else if d.Close > st.2 then d.Volume else 0),
       d.Close)) (0, d0.Close)).1

/-- Wilder smoothing step per the spec, acting on a day's delta
`change`: the side the sign dictates is updated by
`(avg*(period-1) ± change)/period`, the other side decays by
`(period-1)/period`. -/
def wilderSpecStep (p : ℚ) (gl : ℚ × ℚ) (change : ℚ) : ℚ × ℚ :=
  if change < 0 then (gl.1 * (p - 1) / p, (gl.2 * (p - 1) - change) / p)
  else ((gl.1 * (p - 1) + change) / p, gl.2 * (p - 1) / p)

/-- The final (average gain, average loss) pair of MomentumIndex per the
spec: per-sign accumulations of the deltas `Open - Close` over the first
`p` entries, divided by `p`, then the Wilder step folded over the
remaining deltas. -/
def momentumIndexAvgs (days : List Day) (p : Nat) : ℚ × ℚ :=
  let deltas := days.map fun d => d.Open - d.Close
  let seedG := ((deltas.take p).map fun c => if c < 0 then 0 else c).sum / p
  let seedL := ((deltas.take p).map fun c => if c < 0 then -c else 0).sum / p
  (deltas.drop p).foldl (wilderSpecStep p) (seedG, seedL)

/-- MomentumIndex final value per the spec:
`100 - 100/(1 + avgGain/avgLoss)` from the final smoothed state. -/
def momentumIndexSpec (days : List Day) (p : Nat) : ℚ :=
  100 - 100 / (1 + (momentumIndexAvgs days p).1 / (momentumIndexAvgs days p).2)

/-- The maximum of the daily Highs of a non-empty series (the series'
true high, with no sentinel). -/
def highsMax : List Day → ℚ
  | [] => 0
  | d :: rest => rest.foldl (fun a x => max a x.High) d.High

/-- The minimum of the daily Lows of a non-empty series (the series'
true low, with no sentinel). -/
def lowsMin : List Day → ℚ
  | [] => 2000000
  | d :: rest => rest.foldl (fun a x => min a x.Low) d.Low

/-- Sum of the positive parts of the deltas `Open - Close` (the seed
gain accumulator before averaging). -/
def gainSum (l : List Day) : ℚ :=
  (l.map fun d => if d.Open - d.Close < 0 then 0 else d.Open - d.Close).sum

/-- Sum of the negative parts of the deltas `Open - Close` (the seed
loss accumulator before averaging). -/
def lossSum (l : List Day) : ℚ :=
  (l.map fun d => if d.Open - d.Close < 0 then -(d.Open - d.Close) else 0).sum

/-- Sum of the closes of a list of days. -/
def closeSum (l : List Day) : ℚ := (l.map Day.Close).sum

/-! Helper lemmas. -/

lemma ok_bind {α β : Type} (a : α) (f : α → Except PyErr β) :
    (Except.ok a).bind f = f a := rfl

lemma error_bind {α β : Type} (e : PyErr) (f : α → Except PyErr β) :
    (Except.error e).bind f = (Except.error e : Except PyErr β) := rfl

lemma pure_eq_ok {α : Type} (a : α) : (pure a : Except PyErr α) = .ok a := rfl

lemma ok_bindM {α β : Type} (a : α) (f : α → Except PyErr β) :
    ((Except.ok a : Except PyErr α) >>= f) = f a := rfl

lemma error_bindM {α β : Type} (e : PyErr) (f : α → Except PyErr β) :
    ((Except.error e : Except PyErr α) >>= f) = (Except.error e : Except PyErr β) := rfl

lemma pyDiv_ne {a b : ℚ} (h : b ≠ 0) : pyDiv a b = .ok (a / b) := by
  simp [pyDiv, h]

lemma pyIndex_eq_drop (l : List Day) : ∀ i, pyIndex l i =
    match l.drop i with
    | [] => .error .indexError
    | d :: _ => .ok d := by
  induction l with
  | nil => intro i; simp [pyIndex]
  | cons x xs ih =>
    intro i
    cases i with
    | zero => simp [pyIndex]
    | succ j => simpa [pyIndex, List.getElem?_cons_succ] using ih j

lemma gainSum_cons (d : Day) (t : List Day) :
    gainSum (d :: t) = (if d.Open - d.Close < 0 then 0 else d.Open - d.Close) + gainSum t := by
  simp [gainSum]

lemma lossSum_cons (d : Day) (t : List Day) :
    lossSum (d :: t) = (if d.Open - d.Close < 0 then -(d.Open - d.Close) else 0) + lossSum t := by
  simp [lossSum]

lemma closeSum_cons (d : Day) (t : List Day) :
    closeSum (d :: t) = d.Close + closeSum t := by
  simp [closeSum]

lemma gainSum_nonneg (l : List Day) : 0 ≤ gainSum l := by
  refine List.sum_nonneg fun x hx => ?_
  obtain ⟨d, _, rfl⟩ := List.mem_map.mp hx
  by_cases h : d.Open - d.Close < 0
  · simp [h]
  · simp only [h, if_false]
    linarith [not_lt.mp h]

lemma lossSum_nonneg (l : List Day) : 0 ≤ lossSum l := by
  refine List.sum_nonneg fun x hx => ?_
  obtain ⟨d, _, rfl⟩ := List.mem_map.mp hx
  by_cases h : d.Open - d.Close < 0
  · simp only [h, if_true]
    linarith
  · simp [h]

lemma rsiSeedLoop_ok (days : List Day) :
    ∀ (n i : Nat) (g l : ℚ), n ≤ (days.drop i).length →
      rsiSeedLoop days i n g l =
        .ok (g + gainSum ((days.drop i).take n), l + lossSum ((days.drop i).take n)) := by
  intro n
  induction n with
  | zero => intro i g l _; simp [rsiSeedLoop, gainSum, lossSum]
  | succ m ih =>
    intro i g l h
    cases hd : days.drop i with
    | nil => rw [hd] at h; simp at h
    | cons d rest =>
      have hidx : pyIndex days i = .ok d := by rw [pyIndex_eq_drop, hd]
      have hrest : days.drop (i + 1) = rest := by
        rw [← List.tail_drop, hd]
        rfl
      rw [hd] at h
      simp only [List.length_cons, Nat.succ_le_succ_iff] at h
      have hstep : rsiSeedLoop days i (m + 1) g l =
          (if d.Open - d.Close < 0 then
            rsiSeedLoop days (i + 1) m g (l - (d.Open - d.Close))
          else
            rsiSeedLoop days (i + 1) m (g + (d.Open - d.Close)) l) := by
        rw [rsiSeedLoop, hidx, ok_bind]
      rw [hstep, List.take_succ_cons, gainSum_cons, lossSum_cons]
      by_cases hc : d.Open - d.Close < 0
      · rw [if_pos hc, if_pos hc, if_pos hc,
          ih (i + 1) _ _ (by rw [hrest]; exact h), hrest]
        refine congrArg _ (Prod.ext ?_ ?_)
        · simp only []
          ring
        · simp only []
          ring
      · rw [if_neg hc, if_neg hc, if_neg hc,
          ih (i + 1) _ _ (by rw [hrest]; exact h), hrest]
        refine congrArg _ (Prod.ext ?_ ?_)
        · simp only []
          ring
        · simp only []
          ring

lemma emaSmaLoop_ok (days : List Day) :
    ∀ (n i : Nat) (acc : ℚ), n ≤ (days.drop i).length →
      emaSmaLoop days i n acc = .ok (acc + closeSum ((days.drop i).take n)) := by
  intro n
  induction n with
  | zero => intro i acc _; simp [emaSmaLoop, closeSum]
  | succ m ih =>
    intro i acc h
    cases hd : days.drop i with
    | nil => rw [hd] at h; simp at h
    | cons d rest =>
      have hidx : pyIndex days i = .ok d := by rw [pyIndex_eq_drop, hd]
      have hrest : days.drop (i + 1) = rest := by
        rw [← List.tail_drop, hd]
        rfl
      rw [hd] at h
      simp only [List.length_cons, Nat.succ_le_succ_iff] at h
      have hstep : emaSmaLoop days i (m + 1) acc =
          emaSmaLoop days (i + 1) m (acc + d.Close) := by
        rw [emaSmaLoop, hidx, ok_bind]
      rw [hstep, List.take_succ_cons, closeSum_cons,
        ih (i + 1) _ (by rw [hrest]; exact h), hrest]
      refine congrArg _ ?_
      ring

lemma rsiSmooth_foldlM (tp : ℚ) (htp : 1 ≤ tp) :
    ∀ (l : List Day) (g0 l0 : ℚ), 0 ≤ g0 → 0 ≤ l0 →
      List.foldlM (rsiSmoothStep tp (tp - 1)) ((g0, l0) : ℚ × ℚ) l =
          .ok (l.foldl (fun gl d => wilderSpecStep tp gl (d.Open - d.Close)) (g0, l0)) ∧
        0 ≤ (l.foldl (fun gl d => wilderSpecStep tp gl (d.Open - d.Close)) (g0, l0)).1 ∧
        0 ≤ (l.foldl (fun gl d => wilderSpecStep tp gl (d.Open - d.Close)) (g0, l0)).2 := by
  have htp0 : (0 : ℚ) < tp := lt_of_lt_of_le one_pos htp
  have htpne : tp ≠ 0 := ne_of_gt htp0
  have htpl : (0 : ℚ) ≤ tp - 1 := by linarith
  intro l
  induction l with
  | nil =>
    intro g0 l0 hg hl
    exact ⟨rfl, hg, hl⟩
  | cons d rest ih =>
    intro g0 l0 hg hl
    by_cases hc : d.Open - d.Close < 0
    · have hg1 : 0 ≤ g0 * (tp - 1) / tp := div_nonneg (mul_nonneg hg htpl) (le_of_lt htp0)
      have hl1 : 0 < (l0 * (tp - 1) - (d.Open - d.Close)) / tp := by
        apply div_pos _ htp0
        nlinarith
      have hstep : rsiSmoothStep tp (tp - 1) (g0, l0) d =
          .ok (g0 * (tp - 1) / tp, (l0 * (tp - 1) - (d.Open - d.Close)) / tp) := by
        simp only [rsiSmoothStep, if_pos hc]
        rw [pyDiv_ne htpne, ok_bind, pyDiv_ne htpne, ok_bind,
          pyDiv_ne (ne_of_gt hl1), ok_bind]
      have hfold : (d :: rest).foldl (fun gl x => wilderSpecStep tp gl (x.Open - x.Close)) (g0, l0)
          = rest.foldl (fun gl x => wilderSpecStep tp gl (x.Open - x.Close))
              (g0 * (tp - 1) / tp, (l0 * (tp - 1) - (d.Open - d.Close)) / tp) := by
        rw [List.foldl_cons]
        simp only [wilderSpecStep, if_pos hc]
      rw [List.foldlM_cons, hstep, hfold]
      have hbind : ((Except.ok (g0 * (tp - 1) / tp, (l0 * (tp - 1) - (d.Open - d.Close)) / tp) :
            Except PyErr (ℚ × ℚ)) >>= fun x =>
              List.foldlM (rsiSmoothStep tp (tp - 1)) x rest) =
          List.foldlM (rsiSmoothStep tp (tp - 1))
            ((g0 * (tp - 1) / tp, (l0 * (tp - 1) - (d.Open - d.Close)) / tp) : ℚ × ℚ) rest := rfl
      rw [hbind]
      exact ih _ _ hg1 (le_of_lt hl1)
    · have hge : 0 ≤ d.Open - d.Close := not_lt.mp hc
      have hl1 : 0 ≤ l0 * (tp - 1) / tp := div_nonneg (mul_nonneg hl htpl) (le_of_lt htp0)
      have hg1 : 0 ≤ (g0 * (tp - 1) + (d.Open - d.Close)) / tp := by
        apply div_nonneg _ (le_of_lt htp0)
        have := mul_nonneg hg htpl
        linarith
      have hstep : rsiSmoothStep tp (tp - 1) (g0, l0) d =
          .ok ((g0 * (tp - 1) + (d.Open - d.Close)) / tp, l0 * (tp - 1) / tp) := by
        simp only [rsiSmoothStep, if_neg hc]
        rw [pyDiv_ne htpne, ok_bind, pyDiv_ne htpne, ok_bind]
      have hfold : (d :: rest).foldl (fun gl x => wilderSpecStep tp gl (x.Open - x.Close)) (g0, l0)
          = rest.foldl (fun gl x => wilderSpecStep tp gl (x.Open - x.Close))
              ((g0 * (tp - 1) + (d.Open - d.Close)) / tp, l0 * (tp - 1) / tp) := by
        rw [List.foldl_cons]
        simp only [wilderSpecStep, if_neg hc]
      rw [List.foldlM_cons, hstep, hfold]
      have hbind : ((Except.ok ((g0 * (tp - 1) + (d.Open - d.Close)) / tp, l0 * (tp - 1) / tp) :
            Except PyErr (ℚ × ℚ)) >>= fun x =>
              List.foldlM (rsiSmoothStep tp (tp - 1)) x rest) =
          List.foldlM (rsiSmoothStep tp (tp - 1))
            (((g0 * (tp - 1) + (d.Open - d.Close)) / tp, l0 * (tp - 1) / tp) : ℚ × ℚ) rest := rfl
      rw [hbind]
      exact ih _ _ hg1 hl1

lemma if_lt_max (a b : ℚ) : (if a < b then b else a) = max a b := by
  rcases le_or_lt b a with h | h
  · rw [if_neg (not_lt.mpr h), max_eq_left h]
  · rw [if_pos h, max_eq_right (le_of_lt h)]

lemma if_gt_min (a b : ℚ) : (if a > b then b else a) = min a b := by
  rcases le_or_lt a b with h | h
  · rw [if_neg (not_lt.mpr h), min_eq_left h]
  · rw [if_pos h, min_eq_right (le_of_lt h)]

lemma scanStep_eq (a b : ℚ) (d : Day) : scanStep (a, b) d = (max a d.High, min b d.Low) := by
  simp only [scanStep]
  rw [if_lt_max, if_gt_min]

lemma scan_foldl_pair (l : List Day) : ∀ (a b : ℚ),
    l.foldl scanStep (a, b) =
      (l.foldl (fun x d => max x d.High) a, l.foldl (fun x d => min x d.Low) b) := by
  induction l with
  | nil => intro a b; rfl
  | cons d rest ih =>
    intro a b
    rw [List.foldl_cons, List.foldl_cons, List.foldl_cons, scanStep_eq]
    exact ih _ _

lemma foldl_max_init (l : List Day) : ∀ (a b : ℚ),
    l.foldl (fun x d => max x d.High) (max a b) =
      max a (l.foldl (fun x d => max x d.High) b) := by
  induction l with
  | nil => intro a b; rfl
  | cons d rest ih =>
    intro a b
    rw [List.foldl_cons, max_assoc, ih, List.foldl_cons]

lemma foldl_min_init (l : List Day) : ∀ (a b : ℚ),
    l.foldl (fun x d => min x d.Low) (min a b) =
      min a (l.foldl (fun x d => min x d.Low) b) := by
  induction l with
  | nil => intro a b; rfl
  | cons d rest ih =>
    intro a b
    rw [List.foldl_cons, min_assoc, ih, List.foldl_cons]

lemma scanHighLow_eq (days : List Day) :
    scanHighLow days = (max 0 (highsMax days), min 2000000 (lowsMin days)) := by
  cases days with
  | nil => simp [scanHighLow, highsMax, lowsMin]
  | cons d rest =>
    rw [scanHighLow, List.foldl_cons, scanStep_eq, scan_foldl_pair, highsMax, lowsMin,
      ← foldl_max_init, ← foldl_min_init]

lemma le_foldl_max (l : List Day) : ∀ a : ℚ, a ≤ l.foldl (fun x d => max x d.High) a := by
  induction l with
  | nil => intro a; exact le_refl a
  | cons d rest ih =>
    intro a
    rw [List.foldl_cons]
    exact le_trans (le_max_left a d.High) (ih _)

lemma lt_foldl_min (l : List Day) (c : ℚ) :
    ∀ a : ℚ, c < a → (∀ d ∈ l, c < d.Low) → c < l.foldl (fun x d => min x d.Low) a := by
  induction l with
  | nil => intro a ha _; exact ha
  | cons d rest ih =>
    intro a ha hall
    rw [List.foldl_cons]
    exact ih _ (lt_min ha (hall d (List.mem_cons_self d rest)))
      fun x hx => hall x (List.mem_cons_of_mem d hx)

lemma emaBuild_length (m : ℚ) : ∀ (l : List Day) (x : ℚ), (emaBuild m x l).length = l.length := by
  intro l
  induction l with
  | nil => intro x; rfl
  | cons d rest ih =>
    intro x
    rw [emaBuild, List.length_cons, List.length_cons, ih]

lemma emaBuild_getD (m : ℚ) : ∀ (l : List Day) (x : ℚ) (j : Nat), j < l.length →
    (x :: emaBuild m x l).getD (j + 1) 0 =
      ((l.map Day.Close).getD j 0 - (x :: emaBuild m x l).getD j 0) * m +
        (x :: emaBuild m x l).getD j 0 := by
  intro l
  induction l with
  | nil => intro x j h; simp at h
  | cons d rest ih =>
    intro x j h
    cases j with
    | zero => simp [emaBuild]
    | succ k =>
      have hk : k < rest.length := by
        simpa using h
      have hrec := ih ((d.Close - x) * m + x) k hk
      calc (x :: emaBuild m x (d :: rest)).getD (k + 1 + 1) 0
          = (((d.Close - x) * m + x) :: emaBuild m ((d.Close - x) * m + x) rest).getD (k + 1) 0 := by
            rw [emaBuild, List.getD_cons_succ]
        _ = ((rest.map Day.Close).getD k 0 -
              (((d.Close - x) * m + x) :: emaBuild m ((d.Close - x) * m + x) rest).getD k 0) * m +
              (((d.Close - x) * m + x) :: emaBuild m ((d.Close - x) * m + x) rest).getD k 0 := hrec
        _ = (((d :: rest).map Day.Close).getD (k + 1) 0 -
              (x :: emaBuild m x (d :: rest)).getD (k + 1) 0) * m +
              (x :: emaBuild m x (d :: rest)).getD (k + 1) 0 := by
            rw [List.map_cons, List.getD_cons_succ, emaBuild, List.getD_cons_succ]

/-! Claim theorems. -/

/-- Claim C1.  The code overwrites, it does not accumulate: on the
ascending series with closes 1, 2, 3 and volumes 10, 5, 7 (two up days),
`onBalanceVolume` returns only the last day's signed volume `+7`, while
the cumulative total required by the claim (and by the function's own
docstring and by spec section 4.3) is `5 + 7 = 12`. -/
theorem c1_obv_overwrites_not_cumulative :
    onBalanceVolume [⟨0, 0, 0, 1, 10⟩, ⟨0, 0, 0, 2, 5⟩, ⟨0, 0, 0, 3, 7⟩] = .ok 7 ∧
      volumeFlowSpec [⟨0, 0, 0, 1, 10⟩, ⟨0, 0, 0, 2, 5⟩, ⟨0, 0, 0, 3, 7⟩] = 12 := by
  constructor
  · rfl
  · rfl

/-- Claim C2.  On a series of length 3 with period 2 in which every
day's delta `Open - Close` is a gain, the final average loss is 0 and
`relativeStrengthIndex` raises `ZeroDivisionError` instead of returning
100. -/
theorem c2_rsi_all_gains_raises :
    relativeStrengthIndex [⟨2, 0, 0, 1, 0⟩, ⟨2, 0, 0, 1, 0⟩, ⟨2, 0, 0, 1, 0⟩] 2 =
      .error PyErr.zeroDivisionError := by
  norm_num [relativeStrengthIndex, rsiSeedLoop, rsiSmoothStep, pyIndex, pyDiv,
    ok_bind, error_bind, ok_bindM, error_bindM, pure_eq_ok, List.foldlM]

/-- Claim C4.  A single-day series fed to `exponentialMovingAverage` or
`relativeStrengthIndex` with period 2 (period greater than the series
length) raises `IndexError` (an out-of-range subscript), not
`InsufficientHistoryError`; and a series whose length equals the period
does not raise at all — `relativeStrengthIndex` returns a computed value
(here `200/3`). -/
theorem c4_short_series_index_error :
    exponentialMovingAverage [⟨0, 0, 0, 5, 0⟩] 2 = .error PyErr.indexError ∧
      relativeStrengthIndex [⟨0, 0, 0, 5, 0⟩] 2 = .error PyErr.indexError ∧
        relativeStrengthIndex [⟨1, 0, 0, 2, 0⟩, ⟨3, 0, 0, 1, 0⟩] 2 = .ok (200 / 3) := by
  refine ⟨?_, ?_, ?_⟩
  · norm_num [exponentialMovingAverage, emaSmaLoop, pyIndex, pyDiv, ok_bind, error_bind]
  · norm_num [relativeStrengthIndex, rsiSeedLoop, pyIndex, pyDiv, ok_bind, error_bind]
  · norm_num [relativeStrengthIndex, rsiSeedLoop, rsiSmoothStep, pyIndex, pyDiv,
      ok_bind, error_bind, ok_bindM, error_bindM, pure_eq_ok, List.foldlM]

/-- Claim C3, counterexample.  On the flat window with High = Low = 7
the code raises Python's `ZeroDivisionError` (it divides by the zero
range), not the `DegenerateRangeError` named by the claim — the script
defines no such exception class at all. -/
theorem c3_flat_window_not_degenerate_error :
    psScore [⟨0, 7, 7, 0, 0⟩] 54 = .error PyErr.zeroDivisionError ∧
      ¬ psScore [⟨0, 7, 7, 0, 0⟩] 54 = .error PyErr.degenerateRangeError := by
  have h : psScore [⟨0, 7, 7, 0, 0⟩] 54 = .error PyErr.zeroDivisionError := by
    norm_num [psScore, scanHighLow, scanStep, pyDiv]
  refine ⟨h, ?_⟩
  rw [h]
  intro hh
  exact PyErr.noConfusion (Except.error.inj hh)

/-- Claim C3, amended.  Whenever the scanned historic high equals the
scanned historic low, `psScore` raises `ZeroDivisionError` (and in
particular produces no infinity/NaN value). -/
theorem c3_flat_window_zero_division (days : List Day) (currentValue : ℚ)
    (h : (scanHighLow days).1 = (scanHighLow days).2) :
    psScore days currentValue = .error PyErr.zeroDivisionError := by
  simp only [psScore]
  rw [h, sub_self]
  rfl

/-- Witness for the amended claim C3 at the concrete flat window with
High = Low = 50. -/
theorem c3_flat_window_zero_division_witness :
    (scanHighLow [⟨0, 50, 50, 0, 0⟩]).1 = (scanHighLow [⟨0, 50, 50, 0, 0⟩]).2 ∧
      psScore [⟨0, 50, 50, 0, 0⟩] 54 = .error PyErr.zeroDivisionError :=
  ⟨by norm_num [scanHighLow, scanStep],
    c3_flat_window_zero_division [⟨0, 50, 50, 0, 0⟩] 54 (by norm_num [scanHighLow, scanStep])⟩

/-- Claim C5, counterexample.  The claim asserts the result lies in
[-1, 1] for every window with high > low and every current price, but
the current price is not constrained to the window's range: on the
window High = 60, Low = 50 with current value 100 the code returns 9. -/
theorem c5_outside_window_escapes_bounds :
    psScore [⟨0, 60, 50, 0, 0⟩] 100 = .ok 9 ∧ ¬ ((9 : ℚ) ≤ 1) := by
  constructor
  · norm_num [psScore, scanHighLow, scanStep, pyDiv]
  · norm_num

/-- Claim C5, amended.  For every non-empty window whose true high
`highsMax` is nonnegative and whose true low `lowsMin` is at most
2000000 (so the sentinels do not interfere), with `lowsMin < highsMax`,
`psScore` returns `(2*c - highsMax - lowsMin)/(highsMax - lowsMin)`;
the value lies in [-1, 1] whenever the current value `c` lies in
`[lowsMin, highsMax]`. -/
theorem c5_psScore_formula_and_bounds (days : List Day) (c : ℚ)
    (hne : days ≠ [])
    (hH0 : 0 ≤ highsMax days) (hL0 : lowsMin days ≤ 2000000)
    (hrange : lowsMin days < highsMax days)
    (hcl : lowsMin days ≤ c) (hch : c ≤ highsMax days) :
    psScore days c =
        .ok ((2 * c - highsMax days - lowsMin days) / (highsMax days - lowsMin days)) ∧
      -1 ≤ (2 * c - highsMax days - lowsMin days) / (highsMax days - lowsMin days) ∧
        (2 * c - highsMax days - lowsMin days) / (highsMax days - lowsMin days) ≤ 1 := by
  have hd : (0 : ℚ) < highsMax days - lowsMin days := by linarith
  refine ⟨?_, ?_, ?_⟩
  · simp only [psScore, scanHighLow_eq, max_eq_right hH0, min_eq_right hL0]
    exact pyDiv_ne (ne_of_gt hd)
  · rw [le_div_iff₀ hd]
    linarith
  · rw [div_le_one hd]
    linarith

/-- Witness for the amended claim C5 at the spec's own example: window
High = 60, Low = 50, current value 54, giving -0.2. -/
theorem c5_psScore_formula_and_bounds_witness :
    psScore [⟨0, 60, 50, 0, 0⟩] 54 = .ok (-(1 / 5)) ∧
      -1 ≤ -((1 : ℚ) / 5) ∧ -((1 : ℚ) / 5) ≤ 1 := by
  have h := c5_psScore_formula_and_bounds [⟨0, 60, 50, 0, 0⟩] 54 (by simp)
    (by norm_num [highsMax]) (by norm_num [lowsMin]) (by norm_num [highsMax, lowsMin])
    (by norm_num [lowsMin]) (by norm_num [highsMax])
  have hv : (2 * (54 : ℚ) - highsMax [⟨0, 60, 50, 0, 0⟩] - lowsMin [⟨0, 60, 50, 0, 0⟩]) /
      (highsMax [⟨0, 60, 50, 0, 0⟩] - lowsMin [⟨0, 60, 50, 0, 0⟩]) = -(1 / 5) := by
    norm_num [highsMax, lowsMin]
  rw [hv] at h
  exact h

/-- Claim C8.  With a nonzero current value, `trainingDecision` returns
exactly the branch structure the claim describes: with the scanned
forward-window high `H` and low `L`, gain `g = H - c`, loss
`l = c - L`, it returns `(g/c, g/c > t)` when `g ≥ l` and
`(-(l/c), l/c > t)` otherwise. -/
theorem c8_trainingDecision_branches (days : List Day) (c t : ℚ) (hc : c ≠ 0) :
    trainingDecision days c t =
      .ok (if (scanHighLow days).1 - c ≥ c - (scanHighLow days).2 then
            (((scanHighLow days).1 - c) / c,
              decide (((scanHighLow days).1 - c) / c > t))
          else
            (-((c - (scanHighLow days).2) / c),
              decide ((c - (scanHighLow days).2) / c > t))) := by
  simp only [trainingDecision]
  by_cases h : (scanHighLow days).1 - c ≥ c - (scanHighLow days).2
  · rw [if_pos h, if_pos h, pyDiv_ne hc, ok_bind]
  · rw [if_neg h, if_neg h, pyDiv_ne hc, ok_bind]

/-- Witness for claim C8 at the spec's example: forward window
High = 65, Low = 48, current value 54, threshold 0.1 — long direction,
signed return 11/54, recommendation True. -/
theorem c8_trainingDecision_branches_witness :
    (54 : ℚ) ≠ 0 ∧
      trainingDecision [⟨0, 65, 48, 0, 0⟩] 54 (1 / 10) = .ok (11 / 54, true) := by
  refine ⟨by norm_num, ?_⟩
  have h := c8_trainingDecision_branches [⟨0, 65, 48, 0, 0⟩] 54 (1 / 10) (by norm_num)
  rw [h]
  norm_num [scanHighLow, scanStep]

/-- Claim C10.  Each of the five indicator functions is deterministic:
two runs on equal inputs give equal outputs (the embedding is pure; the
script's functions touch only their own locals). -/
theorem c10_indicators_deterministic (days days2 : List Day) (c t : ℚ) (p : Nat)
    (h : days = days2) :
    psScore days c = psScore days2 c ∧
      relativeStrengthIndex days p = relativeStrengthIndex days2 p ∧
        onBalanceVolume days = onBalanceVolume days2 ∧
          exponentialMovingAverage days p = exponentialMovingAverage days2 p ∧
            trainingDecision days c t = trainingDecision days2 c t := by
  subst h
  exact ⟨rfl, rfl, rfl, rfl, rfl⟩

/-- Witness for claim C10 at a concrete input. -/
theorem c10_indicators_deterministic_witness :
    psScore [⟨1, 4, 2, 3, 9⟩] 3 = psScore [⟨1, 4, 2, 3, 9⟩] 3 ∧
      relativeStrengthIndex [⟨1, 4, 2, 3, 9⟩] 1 = relativeStrengthIndex [⟨1, 4, 2, 3, 9⟩] 1 ∧
        onBalanceVolume [⟨1, 4, 2, 3, 9⟩] = onBalanceVolume [⟨1, 4, 2, 3, 9⟩] ∧
          exponentialMovingAverage [⟨1, 4, 2, 3, 9⟩] 1 =
              exponentialMovingAverage [⟨1, 4, 2, 3, 9⟩] 1 ∧
            trainingDecision [⟨1, 4, 2, 3, 9⟩] 3 (1 / 10) =
              trainingDecision [⟨1, 4, 2, 3, 9⟩] 3 (1 / 10) :=
  c10_indicators_deterministic [⟨1, 4, 2, 3, 9⟩] [⟨1, 4, 2, 3, 9⟩] 3 (1 / 10) 1 rfl

lemma momentumIndexAvgs_eq (days : List Day) (p : Nat) :
    momentumIndexAvgs days p =
      (days.drop p).foldl (fun gl d => wilderSpecStep p gl (d.Open - d.Close))
        (gainSum (days.take p) / p, lossSum (days.take p) / p) := by
  have hg : (((days.map fun d => d.Open - d.Close).take p).map
        fun c => if c < 0 then 0 else c).sum = gainSum (days.take p) := by
    rw [← List.map_take, List.map_map]
    rfl
  have hlo : (((days.map fun d => d.Open - d.Close).take p).map
        fun c => if c < 0 then -c else 0).sum = lossSum (days.take p) := by
    rw [← List.map_take, List.map_map]
    rfl
  simp only [momentumIndexAvgs, hg, hlo]
  rw [← List.map_drop, List.foldl_map]

/-- Claim C6.  For a series longer than the (positive) period, as long
as the final smoothed average loss is nonzero (claim C2 covers the zero
case), `relativeStrengthIndex` computes exactly the algorithm the claim
describes — same-day `Open - Close` deltas, per-sign seed accumulations
divided by the period, Wilder smoothing of the remaining deltas with the
other side decayed by `(period-1)/period`, and finally
`100 - 100/(1 + avgGain/avgLoss)` — as captured by the spec-side
`momentumIndexSpec`. -/
theorem c6_rsi_matches_spec (days : List Day) (p : Nat)
    (hp : 1 ≤ p) (hlen : p < days.length)
    (hl : (momentumIndexAvgs days p).2 ≠ 0) :
    relativeStrengthIndex days p = .ok (momentumIndexSpec days p) := by
  have htp : (1 : ℚ) ≤ (p : ℚ) := by exact_mod_cast hp
  have hq0 : (0 : ℚ) ≤ (p : ℚ) := Nat.cast_nonneg p
  have hpq : (p : ℚ) ≠ 0 := ne_of_gt (lt_of_lt_of_le zero_lt_one htp)
  have hseed := rsiSeedLoop_ok days p 0 0 0 (by rw [List.drop_zero]; exact le_of_lt hlen)
  rw [List.drop_zero, zero_add, zero_add] at hseed
  obtain ⟨hfold, hgnn, hlnn⟩ := rsiSmooth_foldlM (p : ℚ) htp (days.drop p)
    (gainSum (days.take p) / p) (lossSum (days.take p) / p)
    (div_nonneg (gainSum_nonneg _) hq0) (div_nonneg (lossSum_nonneg _) hq0)
  rw [momentumIndexAvgs_eq] at hl
  have hlpos : 0 < ((days.drop p).foldl (fun gl d => wilderSpecStep p gl (d.Open - d.Close))
      (gainSum (days.take p) / p, lossSum (days.take p) / p)).2 :=
    lt_of_le_of_ne hlnn (Ne.symm hl)
  have hratio : (1 : ℚ) +
      ((days.drop p).foldl (fun gl d => wilderSpecStep p gl (d.Open - d.Close))
        (gainSum (days.take p) / p, lossSum (days.take p) / p)).1 /
      ((days.drop p).foldl (fun gl d => wilderSpecStep p gl (d.Open - d.Close))
        (gainSum (days.take p) / p, lossSum (days.take p) / p)).2 ≠ 0 := by
    have := div_nonneg hgnn (le_of_lt hlpos)
    intro h0
    linarith
  simp only [relativeStrengthIndex]
  rw [hseed, ok_bind]
  rw [pyDiv_ne hpq, ok_bind, pyDiv_ne hpq, ok_bind, hfold, ok_bind,
    pyDiv_ne hl, ok_bind, pyDiv_ne hratio, ok_bind]
  simp only [momentumIndexSpec, momentumIndexAvgs_eq]

/-- Witness for claim C6 on a concrete 3-day series with period 2
(deltas -1, 2, -2; final average loss 5/4, nonzero). -/
theorem c6_rsi_matches_spec_witness :
    1 ≤ 2 ∧ 2 < ([⟨1, 0, 0, 2, 0⟩, ⟨3, 0, 0, 1, 0⟩, ⟨1, 0, 0, 3, 0⟩] : List Day).length ∧
      (momentumIndexAvgs [⟨1, 0, 0, 2, 0⟩, ⟨3, 0, 0, 1, 0⟩, ⟨1, 0, 0, 3, 0⟩] 2).2 ≠ 0 ∧
        relativeStrengthIndex [⟨1, 0, 0, 2, 0⟩, ⟨3, 0, 0, 1, 0⟩, ⟨1, 0, 0, 3, 0⟩] 2 =
          .ok (momentumIndexSpec [⟨1, 0, 0, 2, 0⟩, ⟨3, 0, 0, 1, 0⟩, ⟨1, 0, 0, 3, 0⟩] 2) := by
  refine ⟨by norm_num, by norm_num, ?_, ?_⟩
  · norm_num [momentumIndexAvgs, wilderSpecStep]
  · exact c6_rsi_matches_spec [⟨1, 0, 0, 2, 0⟩, ⟨3, 0, 0, 1, 0⟩, ⟨1, 0, 0, 3, 0⟩] 2
      (by norm_num) (by norm_num) (by norm_num [momentumIndexAvgs, wilderSpecStep])

/-- Claim C7.  For a series longer than the (positive) period,
`exponentialMovingAverage` succeeds and returns a sequence of length
`len(series) - period + 1` whose first element is the simple average of
the first `period` closes and whose subsequent elements satisfy
`ema[i] = (close[i] - ema[i-1]) * (2/(period+1)) + ema[i-1]` over the
entries after the seed window. -/
theorem c7_ema_seed_length_recurrence (days : List Day) (p : Nat)
    (hp : 0 < p) (hlen : p < days.length) :
    ∃ out, exponentialMovingAverage days p = .ok out ∧
      out.length = days.length - p + 1 ∧
      out.getD 0 0 = closeSum (days.take p) / p ∧
      ∀ j, j + 1 < out.length →
        out.getD (j + 1) 0 =
          (((days.drop p).map Day.Close).getD j 0 - out.getD j 0) * (2 / ((p : ℚ) + 1)) +
            out.getD j 0 := by
  have hp1 : ((p : ℚ) + 1) ≠ 0 := by positivity
  have hpq : (p : ℚ) ≠ 0 := Nat.cast_ne_zero.mpr (Nat.pos_iff_ne_zero.mp hp)
  have hsma := emaSmaLoop_ok days p 0 0 (by rw [List.drop_zero]; exact le_of_lt hlen)
  rw [List.drop_zero, zero_add] at hsma
  refine ⟨closeSum (days.take p) / p ::
    emaBuild (2 / ((p : ℚ) + 1)) (closeSum (days.take p) / p) (days.drop p), ?_, ?_, rfl, ?_⟩
  · simp only [exponentialMovingAverage]
    rw [pyDiv_ne hp1, ok_bind, hsma, ok_bind, pyDiv_ne hpq]
    rfl
  · rw [List.length_cons, emaBuild_length, List.length_drop]
  · intro j hj
    rw [List.length_cons, emaBuild_length, List.length_drop] at hj
    exact emaBuild_getD (2 / ((p : ℚ) + 1)) (days.drop p) (closeSum (days.take p) / p) j
      (by rw [List.length_drop]; omega)

/-- Witness for claim C7 on a concrete 2-day series with period 1. -/
theorem c7_ema_seed_length_recurrence_witness :
    0 < 1 ∧ 1 < ([⟨0, 0, 0, 10, 0⟩, ⟨0, 0, 0, 20, 0⟩] : List Day).length ∧
      (∃ out, exponentialMovingAverage [⟨0, 0, 0, 10, 0⟩, ⟨0, 0, 0, 20, 0⟩] 1 = .ok out ∧
        out.length = ([⟨0, 0, 0, 10, 0⟩, ⟨0, 0, 0, 20, 0⟩] : List Day).length - 1 + 1 ∧
        out.getD 0 0 = closeSum (([⟨0, 0, 0, 10, 0⟩, ⟨0, 0, 0, 20, 0⟩] : List Day).take 1) / 1 ∧
        ∀ j, j + 1 < out.length →
          out.getD (j + 1) 0 =
            (((([⟨0, 0, 0, 10, 0⟩, ⟨0, 0, 0, 20, 0⟩] : List Day).drop 1).map
                Day.Close).getD j 0 - out.getD j 0) * (2 / ((1 : ℚ) + 1)) + out.getD j 0) :=
  ⟨by norm_num, by norm_num,
    c7_ema_seed_length_recurrence [⟨0, 0, 0, 10, 0⟩, ⟨0, 0, 0, 20, 0⟩] 1
      (by norm_num) (by norm_num)⟩

/-- Claim C9, counterexample.  The claim's final clause — that for a
series whose Lows all exceed 2000000 the returned value is never the
true-range normalization — fails when the current value coincides with
the series' high: on the one-day window High = 3000000, Low = 2500000
with current value 3000000, the code returns 1, which IS exactly
`(2c - highsMax - lowsMin)/(highsMax - lowsMin)` (also 1). -/
theorem c9_sentinel_value_can_coincide :
    (∀ d ∈ ([⟨0, 3000000, 2500000, 0, 0⟩] : List Day), 2000000 < d.Low) ∧
      psScore [⟨0, 3000000, 2500000, 0, 0⟩] 3000000 =
        .ok ((2 * 3000000 - highsMax [⟨0, 3000000, 2500000, 0, 0⟩] -
              lowsMin [⟨0, 3000000, 2500000, 0, 0⟩]) /
            (highsMax [⟨0, 3000000, 2500000, 0, 0⟩] -
              lowsMin [⟨0, 3000000, 2500000, 0, 0⟩])) := by
  constructor
  · intro d hd
    rw [List.mem_singleton] at hd
    subst hd
    norm_num
  · norm_num [psScore, scanHighLow, scanStep, pyDiv, highsMax, lowsMin]

/-- Claim C9, amended.  The scan of `psScore`/`trainingDecision` starts
from the sentinels 0.0 and 2000000.0, so it yields
`(max 0 highsMax, min 2000000 lowsMin)` (see `scanHighLow_eq`); for
every non-empty well-formed series whose daily Lows all exceed
2,000,000, the scanned low is stuck at the sentinel 2000000, and the
value `psScore` returns differs from the normalization against the
series' true high/low range whenever the current value is not the
series' high (and the true range is non-degenerate). -/
theorem c9_sentinels_distort_range (days : List Day) (c : ℚ)
    (hne : days ≠ [])
    (hlow : ∀ d ∈ days, 2000000 < d.Low ∧ d.Low ≤ d.High)
    (hrange : lowsMin days < highsMax days)
    (hc : c ≠ highsMax days) :
    scanHighLow days = (highsMax days, 2000000) ∧
      psScore days c ≠
        .ok ((2 * c - highsMax days - lowsMin days) / (highsMax days - lowsMin days)) := by
  cases days with
  | nil => exact absurd rfl hne
  | cons d0 rest =>
    have hmem0 : d0 ∈ d0 :: rest := List.mem_cons_self d0 rest
    have hL : 2000000 < lowsMin (d0 :: rest) := by
      rw [lowsMin]
      exact lt_foldl_min rest 2000000 d0.Low (hlow d0 hmem0).1
        fun x hx => (hlow x (List.mem_cons_of_mem d0 hx)).1
    have hH : 2000000 < highsMax (d0 :: rest) := by
      rw [highsMax]
      calc (2000000 : ℚ) < d0.Low := (hlow d0 hmem0).1
        _ ≤ d0.High := (hlow d0 hmem0).2
        _ ≤ rest.foldl (fun a x => max a x.High) d0.High := le_foldl_max rest d0.High
    have hscan : scanHighLow (d0 :: rest) = (highsMax (d0 :: rest), 2000000) := by
      rw [scanHighLow_eq, max_eq_right (by linarith : (0 : ℚ) ≤ highsMax (d0 :: rest)),
        min_eq_left (le_of_lt hL)]
    have h1 : highsMax (d0 :: rest) - (2000000 : ℚ) ≠ 0 := sub_ne_zero.mpr (ne_of_gt hH)
    have h2 : highsMax (d0 :: rest) - lowsMin (d0 :: rest) ≠ 0 :=
      sub_ne_zero.mpr (ne_of_gt hrange)
    refine ⟨hscan, ?_⟩
    have hps : psScore (d0 :: rest) c =
        .ok ((2 * c - highsMax (d0 :: rest) - 2000000) / (highsMax (d0 :: rest) - 2000000)) := by
      simp only [psScore, hscan]
      exact pyDiv_ne h1
    rw [hps]
    intro heq
    have hXY := Except.ok.inj heq
    have hcross := (div_eq_div_iff h1 h2).mp hXY
    have hkey : 2 * (lowsMin (d0 :: rest) - 2000000) * (highsMax (d0 :: rest) - c) = 0 := by
      linear_combination hcross
    exact (mul_ne_zero (mul_ne_zero two_ne_zero (sub_ne_zero.mpr (ne_of_gt hL)))
      (sub_ne_zero.mpr (Ne.symm hc))) hkey

/-- Witness for the amended claim C9: a one-day window entirely above
the low sentinel (High = 3000000, Low = 2500000) with current value
2600000; the code returns 1/5 while the true-range normalization is
-3/5. -/
theorem c9_sentinels_distort_range_witness :
    scanHighLow [⟨0, 3000000, 2500000, 40, 0⟩] =
        (highsMax [⟨0, 3000000, 2500000, 40, 0⟩], 2000000) ∧
      psScore [⟨0, 3000000, 2500000, 40, 0⟩] 2600000 ≠
        .ok ((2 * 2600000 - highsMax [⟨0, 3000000, 2500000, 40, 0⟩] -
              lowsMin [⟨0, 3000000, 2500000, 40, 0⟩]) /
            (highsMax [⟨0, 3000000, 2500000, 40, 0⟩] -
              lowsMin [⟨0, 3000000, 2500000, 40, 0⟩])) :=
  c9_sentinels_distort_range [⟨0, 3000000, 2500000, 40, 0⟩] 2600000 (by simp)
    (by
      intro d hd
      rw [List.mem_singleton] at hd
      subst hd
      norm_num)
    (by norm_num [highsMax, lowsMin]) (by norm_num [highsMax])
